import Mathlib

/-
Verification development for the redis-contentful bridge (src/index.js).
The module is shallowly embedded: JavaScript runtime values become the
inductive `JSVal`, the Redis client and the Contentful client are external
collaborators and are therefore modelled as explicit function parameters
(a scan-page oracle, a delta-response function, the JSON builtins), and
the effectful `sync` / `get` methods become pure functions that return the
ordered trace of store operations they dispatch together with the
resulting store state.
-/

set_option autoImplicit false

mutual

/-- Dynamic JavaScript value, as manipulated throughout src/index.js. -/
inductive JSVal where
  | undefined
  | null
  | bool (b : Bool)
  | num (n : Int)
  | str (s : String)
  | arr (elems : JSArr)
  | obj (props : JSProps)

/-- Elements of a JavaScript array value. -/
inductive JSArr where
  | nil
  | cons (hd : JSVal) (tl : JSArr)

/-- Own enumerable properties of a JavaScript object value, in insertion
order. -/
inductive JSProps where
  | nil
  | cons (key : String) (val : JSVal) (tl : JSProps)

end

/-- Build an array value from a Lean list. -/
def JSArr.ofList : List JSVal → JSArr
  | [] => .nil
  | x :: xs => .cons x (JSArr.ofList xs)

/-- View an array value as a Lean list. -/
def JSArr.toList : JSArr → List JSVal
  | .nil => []
  | .cons x xs => x :: xs.toList

/-- Build a property list from a Lean list. -/
def JSProps.ofList : List (String × JSVal) → JSProps
  | [] => .nil
  | (k, v) :: ps => .cons k v (JSProps.ofList ps)

/-- View a property list as a Lean list. -/
def JSProps.toList : JSProps → List (String × JSVal)
  | .nil => []
  | .cons k v ps => (k, v) :: ps.toList

/-- Array value built from a list of elements. -/
def arrL (xs : List JSVal) : JSVal := .arr (JSArr.ofList xs)

/-- Object value built from a list of properties. -/
def objL (ps : List (String × JSVal)) : JSVal := .obj (JSProps.ofList ps)

/-- JavaScript truthiness: `undefined`, `null`, `false`, `0` and `""` are
falsy; every object and array is truthy.  (NaN is not modelled.) -/
def jsTruthy : JSVal → Bool
  | .undefined => false
  | .null => false
  | .bool b => b
  | .num n => n != 0
  | .str s => s != ""
  | .arr _ => true
  | .obj _ => true

/-- The `typeof v === 'string'` test. -/
def JSVal.isStr : JSVal → Bool
  | .str _ => true
  | _ => false

/-- The `typeof v === 'number'` test. -/
def JSVal.isNum : JSVal → Bool
  | .num _ => true
  | _ => false

/-- The `v instanceof Array` test. -/
def isArrV : JSVal → Bool
  | .arr _ => true
  | _ => false

/-- The `v instanceof Object` test: true for plain objects and arrays,
false for `null` and all primitives. -/
def isObjInst : JSVal → Bool
  | .arr _ => true
  | .obj _ => true
  | _ => false

/-- First-match association-list lookup, the access discipline of a
JavaScript object whose keys are unique. -/
def alookup {α : Type} : List (String × α) → String → Option α
  | [], _ => none
  | (k, v) :: rest, key => if k = key then some v else alookup rest key

/-- First-match lookup directly on a property list. -/
def JSProps.lookupKey : JSProps → String → Option JSVal
  | .nil, _ => none
  | .cons k v rest, key => if k = key then some v else rest.lookupKey key

/-- Index access on an array value. -/
def JSArr.getIdx : JSArr → Nat → JSVal
  | .nil, _ => .undefined
  | .cons x _, 0 => x
  | .cons _ xs, n + 1 => xs.getIdx n

/-- Length of an array value. -/
def JSArr.length : JSArr → Nat
  | .nil => 0
  | .cons _ xs => 1 + xs.length

/-- Decimal reading of a key used as an array index, accumulator style. -/
def decDigitsAux : List Char → Nat → Option Nat
  | [], acc => some acc
  | c :: cs, acc =>
      if '0' ≤ c ∧ c ≤ '9' then decDigitsAux cs (acc * 10 + (c.toNat - '0'.toNat))
      else none

/-- Read a property key as a decimal array index, `none` when the key is
not composed of digits. -/
def strIndex? (s : String) : Option Nat :=
  match s.toList with
  | [] => none
  | c :: cs => decDigitsAux (c :: cs) 0

/-- Property access `o[k]`.  Absent properties, and property access on
primitives, yield `undefined`; numeric strings index into arrays. -/
def getProp : JSVal → String → JSVal
  | .obj props, k => (props.lookupKey k).getD .undefined
  | .arr elems, k =>
      match strIndex? k with
      | some i => elems.getIdx i
      | none => .undefined
  | _, _ => .undefined

/-- `Object.keys`: own enumerable keys of an object, index strings of an
array, nothing for primitives. -/
def jsKeys : JSVal → List String
  | .obj props => props.toList.map Prod.fst
  | .arr elems => (List.range elems.length).map (fun i => toString i)
  | _ => []

/-- Short-circuiting `a && b` on values. -/
def jsAnd (a b : JSVal) : JSVal := if jsTruthy a then b else a

/-- Short-circuiting `a || b` on values. -/
def jsOr (a b : JSVal) : JSVal := if jsTruthy a then a else b

/-- Replace the value at the first occurrence of a key, or append the
binding: the assignment step of a JavaScript object literal that may
mention one key twice (later occurrences override, position is kept). -/
def objSet {α : Type} : List (String × α) → String → α → List (String × α)
  | [], k, v => [(k, v)]
  | (k', v') :: rest, k, v =>
      if k' = k then (k', v) :: rest else (k', v') :: objSet rest k v

/-- Normalise a property list with possibly repeated keys into the object
a JavaScript object literal / spread sequence denotes: first-occurrence
order, last-occurrence value. -/
def mkObj {α : Type} (l : List (String × α)) : List (String × α) :=
  l.foldl (fun acc p => objSet acc p.1 p.2) []

mutual

/-- Structural size of a value, the fuel bound for the recursive
functions below. -/
def jsSize : JSVal → Nat
  | .undefined => 1
  | .null => 1
  | .bool _ => 1
  | .num _ => 1
  | .str _ => 1
  | .arr xs => jsArrSize xs + 1
  | .obj ps => jsPropsSize ps + 1

/-- Structural size of an array value's elements. -/
def jsArrSize : JSArr → Nat
  | .nil => 1
  | .cons x xs => jsSize x + jsArrSize xs + 1

/-- Structural size of a property list. -/
def jsPropsSize : JSProps → Nat
  | .nil => 1
  | .cons _ v ps => jsSize v + jsPropsSize ps + 1

end

/-- String coercion `${v}` of a template literal.  Fuel-bounded to make
the recursion through array elements structural; `jsSize` fuel always
suffices, and fuel is only consumed inside arrays. -/
def jsToStrF : Nat → JSVal → String
  | _, .undefined => "undefined"
  | _, .null => "null"
  | _, .bool b => if b then "true" else "false"
  | _, .num n => toString n
  | _, .str s => s
  | 0, .arr _ => ""
  | fuel + 1, .arr elems =>
      String.intercalate ","
        (elems.toList.map (fun e =>
          match e with
          | .undefined => ""
          | .null => ""
          | v => jsToStrF fuel v))
  | _, .obj _ => "[object Object]"

/-- String coercion `${v}` with adequate fuel. -/
def jsToStr (v : JSVal) : String := jsToStrF (jsSize v) v

/-- Per-field resolution step of the flattener (the body of the
`Object.keys(fields).forEach` loop, src/index.js lines 16-31), with the
recursive call passed in as `rec`: a localized array maps the recursion
over its elements, a localized entry-like object recurses, anything
else is `(fields[fieldKey] and fields[fieldKey][locale]) or empty`. -/
def extractFieldVal (rec : JSVal → JSVal) (fields : JSVal)
    (locale fieldKey : String) : JSVal :=
  let fv := getProp fields fieldKey
  let lv := getProp fv locale
  if jsTruthy fv && isArrV lv then
    JSVal.arr (JSArr.ofList ((match lv with
      | .arr innerList => innerList.toList
      | _ => []).map rec))
  else if jsTruthy fv && isObjInst lv && jsTruthy (getProp lv "fields") then
    rec lv
  else
    jsOr (jsAnd fv lv) (.str "")

/-- Fuel-bounded embedding of `extract` (src/index.js lines 12-48), the
recursive flattener.  All recursive calls descend strictly in `jsSize`
(through property lookups and array elements of `data`), so fuel
`jsSize data` always suffices; `extract` below applies that fuel. -/
def extractF : Nat → JSVal → String → JSVal
  | 0, _, _ => .undefined
  | fuel + 1, data, locale =>
    if jsTruthy data && jsTruthy (getProp data "fields") then
      let fields := getProp data "fields"
      let details := (jsKeys fields).map (fun fieldKey =>
        (fieldKey,
          extractFieldVal (fun innerData => extractF fuel innerData locale)
            fields locale fieldKey))
      let sys := getProp data "sys"
      let ct := getProp sys "contentType"
      let typeProps :=
        if jsTruthy ct && jsTruthy (getProp ct "sys") &&
            jsTruthy (getProp (getProp ct "sys") "id") then
          [("type", getProp (getProp ct "sys") "id")]
        else []
      JSVal.obj (JSProps.ofList (mkObj ([("id", getProp sys "id")] ++ typeProps ++
        [("createdAt", getProp sys "createdAt"),
         ("updatedAt", getProp sys "updatedAt")] ++ details)))
    else if data.isStr || data.isNum then data
    else .undefined

/-- The flattener `extract` of src/index.js with adequate fuel. -/
def extract (data : JSVal) (locale : String) : JSVal :=
  extractF (jsSize data) data locale

/-- Configuration taken by the constructor (src/index.js lines 51-66):
resolved locale, configured identifier field name, and the content-type
allow-list (`contentful.contentTypes || []`). -/
structure Config where
  locale : String
  identifier : String
  contentTypes : List String

/-- The shape of a Contentful delta response used by `sync`. -/
structure SyncResponse where
  entries : List JSVal
  deletedEntries : List JSVal
  nextSyncToken : String

/-- The Redis database state touched by the module: string keys and the
hash holding the persisted cursor. -/
structure Store where
  kv : List (String × String)
  hashes : List (String × List (String × String))

/-- `HGET bucket field`, nil reply as `none`. -/
def Store.hgetKey (st : Store) (bucket field : String) : Option String :=
  match alookup st.hashes bucket with
  | some h => alookup h field
  | none => none

/-- `HSET bucket field value`. -/
def Store.hsetKey (st : Store) (bucket field value : String) : Store :=
  { st with hashes :=
      objSet st.hashes bucket (objSet ((alookup st.hashes bucket).getD []) field value) }

/-- `SET key value`: last write wins. -/
def Store.setKey (st : Store) (key value : String) : Store :=
  { st with kv := objSet st.kv key value }

/-- `DEL keys`. -/
def Store.delKeys (st : Store) (ks : List String) : Store :=
  { st with kv := st.kv.filter (fun p => !(ks.contains p.1)) }

/-- The persisted resumption cursor
(`HGET 'redis-contentful' 'nextSyncToken'`). -/
def Store.storedToken (st : Store) : Option String :=
  st.hgetKey "redis-contentful" "nextSyncToken"

/-- A dispatched store or remote operation, recorded in dispatch order. -/
inductive StoreOp where
  | hget (bucket field : String)
  | cfsync (initial : Bool) (tok : Option String)
  | flushdb
  | set (key value : String)
  | setWithExpiry (key value : String) (seconds : JSVal)
  | get (key : String)
  | scan (cursor pat : String) (count : Option Nat)
  | del (keys : List String)
  | hset (bucket field value : String)
  | barrier

/-- A Redis nil reply is `null`, a found reply is the stored string. -/
def jsOfRedisReply : Option String → JSVal
  | some s => .str s
  | none => .null

/-- JavaScript array of strings (a scan reply's key list). -/
def strArr (ks : List String) : JSVal := arrL (ks.map .str)

/-- `entry.sys.contentType.sys.id`. -/
def entryContentTypeId (e : JSVal) : JSVal :=
  getProp (getProp (getProp (getProp e "sys") "contentType") "sys") "id"

/-- `entry.sys.id`. -/
def entryIdOf (e : JSVal) : JSVal := getProp (getProp e "sys") "id"

/-- Strict equality `t === v` between a configured string and a value. -/
def strEqJS (t : String) : JSVal → Bool
  | .str s => t = s
  | _ => false

/-- `Array.prototype.indexOf` over the configured content-type list,
`-1` when absent (strict equality, so a non-string never matches). -/
def jsIndexOfAux : List String → JSVal → Int → Int
  | [], _, _ => -1
  | t :: ts, v, i => if strEqJS t v then i else jsIndexOfAux ts v (i + 1)

/-- `Array.prototype.indexOf` from position 0. -/
def jsIndexOfStr (l : List String) (v : JSVal) : Int := jsIndexOfAux l v 0

/-- The filtering step of `sync` (src/index.js lines 105-110): keep the
entries whose content type occurs in the allow-list, no filtering when
the allow-list is empty (its length is falsy). -/
def finalEntriesOf (cfg : Config) (entries : List JSVal) : List JSVal :=
  if cfg.contentTypes.length != 0 then
    entries.filter (fun e => jsIndexOfStr cfg.contentTypes (entryContentTypeId e) > -1)
  else entries

/-- The cache key written by `sync` for one entry (src/index.js lines
117-121): the template literal
`{contentType}:{(entry.fields and entry.fields[identifier] and
entry.fields[identifier][locale]) or empty}:{sys.id}`. -/
def entryCacheKey (cfg : Config) (e : JSVal) : String :=
  let fieldsV := getProp e "fields"
  jsToStr (entryContentTypeId e) ++ ":" ++
    jsToStr (jsOr (jsAnd (jsAnd fieldsV (getProp fieldsV cfg.identifier))
      (getProp (getProp fieldsV cfg.identifier) cfg.locale)) (.str "")) ++ ":" ++
    jsToStr (entryIdOf e)

/-- The `(key, serialized value)` writes dispatched by `sync`
(src/index.js lines 104-126); `stringify` models the `JSON.stringify`
builtin. -/
def syncWrites (cfg : Config) (stringify : JSVal → String) (resp : SyncResponse) :
    List (String × String) :=
  if resp.entries.length != 0 then
    (finalEntriesOf cfg resp.entries).map
      (fun e => (entryCacheKey cfg e, stringify (extract e cfg.locale)))
  else []

/-- The scan/delete operations dispatched by the deletion loop of `sync`
(src/index.js lines 129-140).  `scanFn` is the store's single-page scan
oracle: pattern and COUNT hint in, one `(cursor, keys)` page out.  The
guard `if (responseKey[1])` tests the truthiness of the reply's key
array, which is truthy even when empty. -/
def syncDeleteOps (scanFn : String → Option Nat → String × List String)
    (deleted : List JSVal) : List StoreOp :=
  if deleted.length != 0 then
    deleted.flatMap (fun d =>
      let pat := "*:*:" ++ jsToStr (entryIdOf d)
      let reply := scanFn pat none
      StoreOp.scan "0" pat none ::
        (if jsTruthy (strArr reply.2) then [StoreOp.del reply.2] else []))
  else []

/-- Outcome of one `sync` call: the returned/thrown result, the store
state after the call, and the dispatch-ordered operation trace. -/
structure SyncResult where
  result : Except String String
  store : Store
  trace : List StoreOp

/-- Cursor read of `sync` (src/index.js lines 84-89): skipped entirely
when `shouldReset` is truthy. -/
def syncTokenRead (shouldReset : JSVal) (st : Store) : Option (Option String) :=
  if jsTruthy shouldReset then none
  else some (st.hgetKey "redis-contentful" "nextSyncToken")

/-- Mode decision of `sync`: `shouldReset` truthy forces an initial
sync, otherwise `isInitial = !nextSyncToken` on the read cursor. -/
def syncIsInitial (shouldReset : JSVal) (st : Store) : Bool :=
  match syncTokenRead shouldReset st with
  | none => true
  | some tok => !(jsTruthy (jsOfRedisReply tok))

/-- The cursor passed to the remote fetch, absent on an initial sync
(src/index.js lines 91-94). -/
def syncReqTok (shouldReset : JSVal) (st : Store) : Option String :=
  if syncIsInitial shouldReset st then none
  else st.hgetKey "redis-contentful" "nextSyncToken"

/-- Embedding of `sync` (src/index.js lines 78-153).  `respond` is the
remote delta-fetch collaborator, `scanFn` the store's single-page scan
oracle, `stringify` the `JSON.stringify` builtin, and `failOp` marks the
dispatched write/delete operations whose promise rejects.  The cursor
`HSET` (lines 142-146) is awaited before the `Promise.all` barrier
(line 148), so it is applied even when a scheduled write or delete
fails, and the `catch` (lines 150-152) rethrows without rolling it
back; a failed operation's own effect is not applied. -/
def sync (cfg : Config)
    (respond : Bool → Option String → SyncResponse)
    (scanFn : String → Option Nat → String × List String)
    (stringify : JSVal → String)
    (failOp : StoreOp → Bool)
    (shouldReset : JSVal) (st : Store) : SyncResult :=
  let isInitial := syncIsInitial shouldReset st
  let reqTok := syncReqTok shouldReset st
  let readOps : List StoreOp :=
    if jsTruthy shouldReset then [] else [StoreOp.hget "redis-contentful" "nextSyncToken"]
  let resp := respond isInitial reqTok
  let flushOps : List StoreOp := if isInitial then [StoreOp.flushdb] else []
  let st1 := if isInitial then { st with kv := [] } else st
  let writes := syncWrites cfg stringify resp
  let setOps := writes.map (fun w => StoreOp.set w.1 w.2)
  let delSection := syncDeleteOps scanFn resp.deletedEntries
  let trace := readOps ++ [StoreOp.cfsync isInitial reqTok] ++ flushOps ++ setOps ++
    delSection ++
    [StoreOp.hset "redis-contentful" "nextSyncToken" resp.nextSyncToken, StoreOp.barrier]
  let st2 := writes.foldl
    (fun s w => if failOp (StoreOp.set w.1 w.2) then s else s.setKey w.1 w.2) st1
  let st3 := delSection.foldl
    (fun s op =>
      match op with
      | StoreOp.del ks => if failOp op then s else s.delKeys ks
      | _ => s) st2
  let st4 := st3.hsetKey "redis-contentful" "nextSyncToken" resp.nextSyncToken
  let failed := setOps.any failOp ||
    delSection.any (fun op => match op with | StoreOp.del _ => failOp op | _ => false)
  { result := if failed then Except.error "Sync failed" else Except.ok "Sync Complete",
    store := st4, trace := trace }

/-- `key.split(':').shift()`: the substring before the first `':'`
(the whole key when there is none). -/
def parseType (key : String) : String :=
  String.mk (key.toList.takeWhile (fun c => c != ':'))

/-- The polymorphic argument of `get`: a type-name string, an array of
type names (a JavaScript array may carry a non-positional `search`
property, `undefined` when absent), a plain object, or anything else. -/
inductive GetArg where
  | gstr (s : String)
  | garr (elems : List JSVal) (search : JSVal)
  | gobj (props : List (String × JSVal))
  | gother (v : JSVal)

/-- The scan pattern `{type || '*'}:{search || '*'}:*` used by the
array and object branches of `get`. -/
def scanPat (t s : JSVal) : String :=
  jsToStr (jsOr t (.str "*")) ++ ":" ++ jsToStr (jsOr s (.str "*")) ++ ":*"

/-- One grouping step of `get` (src/index.js lines 210-219): push onto
an existing type's sequence, or append a new singleton group. -/
def groupInsert : List (String × List JSVal) → String → JSVal → List (String × List JSVal)
  | [], t, v => [(t, [v])]
  | (k, vs) :: rest, t, v =>
      if k = t then (k, vs ++ [v]) :: rest else (k, vs) :: groupInsert rest t v

/-- The result mapping of `get`: fetched values grouped under
`parseType` of their keys, in scan order. -/
def buildFinal (pairs : List (String × JSVal)) : List (String × List JSVal) :=
  pairs.foldl (fun acc p => groupInsert acc (parseType p.1) p.2) []

/-- `JSON.parse(await rGet(key))`; a nil reply parses to `null`. -/
def fetchVal (kv : List (String × String)) (parse : String → JSVal) (key : String) : JSVal :=
  match alookup kv key with
  | some s => parse s
  | none => .null

/-- Outcome of one `get` call: dispatched operations, the matched keys
in scan order, and the returned type-grouped mapping. -/
structure GetResult where
  trace : List StoreOp
  keys : List String
  final : List (String × List JSVal)

/-- The key-resolution phase of `get` (src/index.js lines 159-205): the
scan operations dispatched and the matched keys collected, by branch on
`typeof details === 'string'`, `details instanceof Array`,
`details instanceof Object`, else nothing.  Each pattern is resolved by
exactly one page of `scanFn` (cursor `'0'`, COUNT 10000). -/
def getScanned (scanFn : String → Option Nat → String × List String) :
    GetArg → List StoreOp × List String
  | .gstr s =>
      let pat := s ++ ":*:*"
      let reply := scanFn pat (some 10000)
      ([StoreOp.scan "0" pat (some 10000)],
       if jsTruthy (strArr reply.2) then reply.2 else [])
  | .garr elems search =>
      let pats := elems.map (fun t => scanPat t search)
      (pats.map (fun p => StoreOp.scan "0" p (some 10000)),
       (pats.map (fun p => (scanFn p (some 10000)).2)).flatten)
  | .gobj props =>
      let ty := (alookup props "type").getD .undefined
      let search := (alookup props "search").getD .undefined
      if ty.isStr then
        let pat := scanPat ty search
        let reply := scanFn pat (some 10000)
        ([StoreOp.scan "0" pat (some 10000)],
         if jsTruthy (strArr reply.2) then reply.2 else [])
      else if isArrV ty then
        let tys := match ty with | .arr l => l.toList | _ => []
        let pats := tys.map (fun t => scanPat t search)
        (pats.map (fun p => StoreOp.scan "0" p (some 10000)),
         (pats.map (fun p => (scanFn p (some 10000)).2)).flatten)
      else ([], [])
  | .gother _ => ([], [])

/-- Embedding of `get` (src/index.js lines 155-221): resolve the query
to keys, fetch each key concurrently, deserialize, and group by
`parseType`.  `kv` is the string-key state read by `rGet`, `parse` the
`JSON.parse` builtin. -/
def redisContentfulGet
    (scanFn : String → Option Nat → String × List String)
    (kv : List (String × String))
    (parse : String → JSVal)
    (details : GetArg) : GetResult :=
  let scanned := getScanned scanFn details
  let keys := scanned.2
  let getOps := keys.map (fun k => StoreOp.get k)
  let vals := keys.map (fun k => fetchVal kv parse k)
  { trace := scanned.1 ++ getOps, keys := keys,
    final := buildFinal (keys.zip vals) }

/-- Embedding of `setCustom` (src/index.js lines 229-238): synchronous
key check, then a plain or TTL write of the serialized value.  On the
error branch no operation is dispatched. -/
def setCustom (stringify : JSVal → String) (key value expire : JSVal) :
    Except String (List StoreOp) :=
  if key.isStr then
    Except.ok (if jsTruthy expire then
        [StoreOp.setWithExpiry (jsToStr key) (stringify value) expire]
      else [StoreOp.set (jsToStr key) (stringify value)])
  else Except.error "setCustom - key should be a string"

/-- Embedding of `getCustom` (src/index.js lines 240-248): synchronous
key check, then a read deserialized with `JSON.parse`. -/
def getCustom (parse : String → JSVal) (kv : List (String × String)) (key : JSVal) :
    Except String (List StoreOp × JSVal) :=
  if key.isStr then
    Except.ok ([StoreOp.get (jsToStr key)], fetchVal kv parse (jsToStr key))
  else Except.error "getCustom - key should be a string"

/-- Embedding of `deleteCustom` (src/index.js lines 250-256). -/
def deleteCustom (key : JSVal) : Except String (List StoreOp) :=
  if key.isStr then Except.ok [StoreOp.del [jsToStr key]]
  else Except.error "deleteCustom - key should be a string"

/-- Fuel-bounded Redis glob matcher (`*` any run, `?` one character);
fuel `|pat| + |s| + 1` always suffices since every call shrinks the
combined length. -/
def globMatchF : Nat → List Char → List Char → Bool
  | 0, _, _ => false
  | _ + 1, [], s => s.isEmpty
  | fuel + 1, '*' :: pr, s =>
      globMatchF fuel pr s ||
        (match s with
         | [] => false
         | _ :: st => globMatchF fuel ('*' :: pr) st)
  | fuel + 1, c :: pr, s =>
      match s with
      | [] => false
      | c' :: st => (c == '?' || c == c') && globMatchF fuel pr st

/-- Redis glob match on strings. -/
def globMatch (pat s : String) : Bool :=
  globMatchF (pat.length + s.length + 1) pat.toList s.toList

/-- One admissible behaviour of the store's single-page scan: the whole
key space fits in one page, so the page is every key matching the
pattern, in store order, with cursor `'0'`. -/
def fullScanPage (kv : List (String × String)) (pat : String) (_count : Option Nat) :
    String × List String :=
  ("0", (kv.map Prod.fst).filter (fun k => globMatch pat k))

/-! Helper lemmas about the association-list and truthiness primitives. -/

theorem alookup_append_some {α : Type} {a : List (String × α)} {k : String} {v : α}
    (b : List (String × α)) (h : alookup a k = some v) : alookup (a ++ b) k = some v := by
  induction a with
  | nil => simp [alookup] at h
  | cons p rest ih =>
      simp only [alookup, List.cons_append] at h ⊢
      split at h <;> simp_all [alookup]

theorem alookup_append_none {α : Type} {a : List (String × α)} {k : String}
    (b : List (String × α)) (h : alookup a k = none) :
    alookup (a ++ b) k = alookup b k := by
  induction a with
  | nil => simp
  | cons p rest ih =>
      simp only [alookup, List.cons_append] at h ⊢
      split at h <;> simp_all [alookup]

theorem alookup_objSet {α : Type} (l : List (String × α)) (k k2 : String) (v : α) :
    alookup (objSet l k v) k2 = if k = k2 then some v else alookup l k2 := by
  induction l with
  | nil => simp [objSet, alookup]
  | cons p rest ih =>
      obtain ⟨a, b⟩ := p
      simp only [objSet]
      by_cases hak : a = k
      · subst hak
        simp only [if_pos rfl, alookup]
        by_cases h2 : a = k2 <;> simp [h2]
      · rw [if_neg hak]
        simp only [alookup, ih]
        by_cases h2 : a = k2
        · have h3 : ¬k = k2 := fun h => hak (h2.trans h.symm)
          simp [h2, h3]
        · by_cases h3 : k = k2 <;> simp [h2, h3]

theorem alookup_foldl_objSet {α : Type} (l : List (String × α))
    (acc : List (String × α)) (k : String) :
    alookup (l.foldl (fun a p => objSet a p.1 p.2) acc) k =
      match alookup l.reverse k with
      | some v => some v
      | none => alookup acc k := by
  induction l generalizing acc with
  | nil => simp [alookup]
  | cons p rest ih =>
      obtain ⟨a, b⟩ := p
      simp only [List.foldl_cons, List.reverse_cons]
      rw [ih]
      cases h : alookup rest.reverse k with
      | some v => rw [alookup_append_some _ h]
      | none =>
          rw [alookup_append_none _ h, alookup_objSet]
          simp only [alookup]
          by_cases hp : a = k <;> simp [hp]

theorem alookup_mkObj {α : Type} (l : List (String × α)) (k : String) :
    alookup (mkObj l) k = alookup l.reverse k := by
  rw [mkObj, alookup_foldl_objSet]
  cases alookup l.reverse k <;> simp [alookup]

theorem alookup_map_self {α : Type} (f : String → α) (l : List String) (k : String)
    (h : k ∈ l) : alookup (l.map (fun x => (x, f x))) k = some (f k) := by
  induction l with
  | nil => simp at h
  | cons a rest ih =>
      simp only [List.map_cons, alookup]
      by_cases hak : a = k
      · subst hak; simp
      · rcases List.mem_cons.mp h with h1 | h1
        · exact absurd h1.symm hak
        · simp [hak, ih h1]

theorem lookupKey_ofList (l : List (String × JSVal)) (k : String) :
    (JSProps.ofList l).lookupKey k = alookup l k := by
  induction l with
  | nil => rfl
  | cons p rest ih =>
      obtain ⟨a, b⟩ := p
      simp only [JSProps.ofList, JSProps.lookupKey, alookup, ih]

theorem getProp_objL (l : List (String × JSVal)) (k : String) :
    getProp (objL l) k = (alookup l k).getD .undefined := by
  simp [getProp, objL, lookupKey_ofList]

/-- A truthy `fields` property forces the holder to be a plain object:
arrays have no `fields` index, primitives have no properties at all. -/
theorem truthy_fields_obj (d : JSVal) (h : jsTruthy (getProp d "fields") = true) :
    ∃ ps, d = JSVal.obj ps := by
  cases d with
  | obj ps => exact ⟨ps, rfl⟩
  | arr es =>
      exfalso
      have he : getProp (JSVal.arr es) "fields" = .undefined := rfl
      rw [he] at h
      simp [jsTruthy] at h
  | undefined => simp [getProp, jsTruthy] at h
  | null => simp [getProp, jsTruthy] at h
  | bool b => simp [getProp, jsTruthy] at h
  | num n => simp [getProp, jsTruthy] at h
  | str s => simp [getProp, jsTruthy] at h

theorem jsTruthy_strArr (ks : List String) : jsTruthy (strArr ks) = true := by
  cases ks <;> rfl

theorem jsOr_jsAnd_empty (a b : JSVal) :
    jsOr (jsAnd a b) (.str "") = if jsTruthy a && jsTruthy b then b else .str "" := by
  unfold jsAnd jsOr
  cases ha : jsTruthy a <;> cases hb : jsTruthy b <;> simp [ha, hb]

theorem jsToStr_chain (a b c : JSVal) :
    jsToStr (jsOr (jsAnd (jsAnd a b) c) (.str "")) =
      if jsTruthy a && jsTruthy b && jsTruthy c then jsToStr c else "" := by
  unfold jsAnd jsOr
  cases ha : jsTruthy a <;> cases hb : jsTruthy b <;> cases hc : jsTruthy c <;>
    simp [ha, hb, hc, jsToStr, jsToStrF, jsSize]

/-! Trace-shape helpers for `sync`. -/

/-- The key of a dispatched plain write, `none` for any other operation. -/
def setKeyOf : StoreOp → Option String
  | .set k _ => some k
  | _ => none

/-- Whether an operation is a scan or a delete. -/
def isScanOrDel : StoreOp → Bool
  | .scan _ _ _ => true
  | .del _ => true
  | _ => false

/-- Whether an operation is a dispatched write or delete (the operations
joined at the `Promise.all` barrier). -/
def isSetOrDel : StoreOp → Bool
  | .set _ _ => true
  | .del _ => true
  | _ => false

/-- The dispatch-ordered trace of `sync`, section by section. -/
theorem sync_trace_eq (cfg : Config) (respond : Bool → Option String → SyncResponse)
    (scanFn : String → Option Nat → String × List String)
    (stringify : JSVal → String) (failOp : StoreOp → Bool) (r : JSVal) (st : Store) :
    (sync cfg respond scanFn stringify failOp r st).trace =
      (if jsTruthy r then ([] : List StoreOp)
        else [StoreOp.hget "redis-contentful" "nextSyncToken"]) ++
      [StoreOp.cfsync (syncIsInitial r st) (syncReqTok r st)] ++
      (if syncIsInitial r st then [StoreOp.flushdb] else []) ++
      ((syncWrites cfg stringify (respond (syncIsInitial r st) (syncReqTok r st))).map
        (fun w => StoreOp.set w.1 w.2)) ++
      syncDeleteOps scanFn (respond (syncIsInitial r st) (syncReqTok r st)).deletedEntries ++
      [StoreOp.hset "redis-contentful" "nextSyncToken"
          (respond (syncIsInitial r st) (syncReqTok r st)).nextSyncToken,
        StoreOp.barrier] := rfl

theorem setKeyOf_syncDeleteOps (scanFn : String → Option Nat → String × List String)
    (deleted : List JSVal) :
    (syncDeleteOps scanFn deleted).filterMap setKeyOf = [] := by
  rw [List.filterMap_eq_nil_iff]
  intro op hop
  unfold syncDeleteOps at hop
  split at hop
  · rcases List.mem_flatMap.mp hop with ⟨d, _, hin⟩
    rcases List.mem_cons.mp hin with h | h
    · subst h; rfl
    · split at h
      · rw [List.mem_singleton.mp h]; rfl
      · simp at h
  · simp at hop

theorem filterMap_setKeyOf_sets (writes : List (String × String)) :
    ((writes.map (fun w => StoreOp.set w.1 w.2)).filterMap setKeyOf) =
      writes.map Prod.fst := by
  induction writes with
  | nil => rfl
  | cons w rest ih => simp [setKeyOf, ih]

theorem syncWrites_keys (cfg : Config) (stringify : JSVal → String) (resp : SyncResponse) :
    (syncWrites cfg stringify resp).map Prod.fst =
      (finalEntriesOf cfg resp.entries).map (entryCacheKey cfg) := by
  unfold syncWrites
  split
  · rw [List.map_map]; rfl
  · rename_i h
    have hlen : resp.entries.length = 0 := by simpa using h
    rw [List.length_eq_zero.mp hlen]
    unfold finalEntriesOf
    split <;> simp

/-- Key formula of the amended claim C1: the middle component is the
identifier field's localized value stringified when the whole access
chain is truthy, and the empty string otherwise — also when the value
is present but falsy, which is where it diverges from the original
claim wording. -/
def amendedCacheKey (cfg : Config) (e : JSVal) : String :=
  jsToStr (entryContentTypeId e) ++ ":" ++
    (if jsTruthy (getProp e "fields") &&
        jsTruthy (getProp (getProp e "fields") cfg.identifier) &&
        jsTruthy (getProp (getProp (getProp e "fields") cfg.identifier) cfg.locale)
      then jsToStr (getProp (getProp (getProp e "fields") cfg.identifier) cfg.locale)
      else "") ++ ":" ++ jsToStr (entryIdOf e)

theorem entryCacheKey_eq_amended (cfg : Config) (e : JSVal) :
    entryCacheKey cfg e = amendedCacheKey cfg e := by
  simp only [entryCacheKey, amendedCacheKey]
  rw [jsToStr_chain]

/-- Modelled from the spec wording of claim C1: the middle key component
is the identifier field's localized value, defaulting to the empty
string only when the field or its localized value is absent. -/
def claimCacheKeyC1 (cfg : Config) (e : JSVal) : String :=
  jsToStr (entryContentTypeId e) ++ ":" ++
    (match getProp (getProp (getProp e "fields") cfg.identifier) cfg.locale with
     | .undefined => ""
     | v => jsToStr v) ++ ":" ++ jsToStr (entryIdOf e)

/-- C1 (amended): every cache key that `sync` writes — one per entry
surviving the content-type filter, in order — is
`{type}:{identifierValue}:{entryId}` where the identifier component is
the stringified localized identifier-field value when that value is
truthy and the empty string when the field or value is absent **or
falsy**. -/
theorem c1_amended_cache_key (cfg : Config)
    (respond : Bool → Option String → SyncResponse)
    (scanFn : String → Option Nat → String × List String)
    (stringify : JSVal → String) (failOp : StoreOp → Bool)
    (r : JSVal) (st : Store) :
    (sync cfg respond scanFn stringify failOp r st).trace.filterMap setKeyOf =
      (finalEntriesOf cfg (respond (syncIsInitial r st) (syncReqTok r st)).entries).map
        (amendedCacheKey cfg) := by
  have hread : ((if jsTruthy r then ([] : List StoreOp)
      else [StoreOp.hget "redis-contentful" "nextSyncToken"]).filterMap setKeyOf) = [] := by
    split <;> rfl
  have hflush : ((if syncIsInitial r st then [StoreOp.flushdb]
      else ([] : List StoreOp)).filterMap setKeyOf) = [] := by
    split <;> rfl
  rw [sync_trace_eq]
  simp only [List.filterMap_append, hread, hflush, setKeyOf_syncDeleteOps,
    filterMap_setKeyOf_sets, List.filterMap_cons, List.filterMap_nil, setKeyOf,
    List.nil_append, List.append_nil]
  rw [syncWrites_keys]
  have : entryCacheKey cfg = amendedCacheKey cfg := funext (entryCacheKey_eq_amended cfg)
  rw [this]

def cfgC1 : Config := { locale := "en-US", identifier := "slug", contentTypes := [] }

def entryC1 : JSVal :=
  objL [("sys", objL [("id", .str "E1"),
                      ("contentType", objL [("sys", objL [("id", .str "post")])]),
                      ("createdAt", .str "c"), ("updatedAt", .str "u")]),
        ("fields", objL [("slug", objL [("en-US", .bool false)])])]

def respondC1 : Bool → Option String → SyncResponse :=
  fun _ _ => { entries := [entryC1], deletedEntries := [], nextSyncToken := "T1" }

/-- C1 counterexample: with a present but falsy localized identifier
value (`false`), the key actually written is `"post::E1"`, while the
claim's formula (identifier value present, hence used) yields
`"post:false:E1"`. -/
theorem c1_counterexample :
    (sync cfgC1 respondC1 (fun _ _ => ("0", [])) (fun _ => "") (fun _ => false)
        (.bool true) { kv := [], hashes := [] }).trace.filterMap setKeyOf = ["post::E1"] ∧
    claimCacheKeyC1 cfgC1 entryC1 = "post:false:E1" ∧
    ("post::E1" : String) ≠ "post:false:E1" :=
  ⟨rfl, rfl, by decide⟩

/-- C8 (amended): for an enumerated field whose localized value is
neither an array nor a nested entry, the flattener stores the localized
value verbatim when the field value and its localized value are truthy,
and the empty string otherwise — in particular also when the localized
value is present but falsy. -/
theorem extractFieldVal_scalar (rec : JSVal → JSVal) (fields : JSVal)
    (locale fieldKey : String)
    (h1 : (jsTruthy (getProp fields fieldKey) &&
        isArrV (getProp (getProp fields fieldKey) locale)) = false)
    (h2 : (jsTruthy (getProp fields fieldKey) &&
        isObjInst (getProp (getProp fields fieldKey) locale) &&
        jsTruthy (getProp (getProp (getProp fields fieldKey) locale) "fields")) = false) :
    extractFieldVal rec fields locale fieldKey =
      (if jsTruthy (getProp fields fieldKey) &&
          jsTruthy (getProp (getProp fields fieldKey) locale) then
        getProp (getProp fields fieldKey) locale
      else .str "") := by
  simp only [extractFieldVal, h1, h2, Bool.false_eq_true, if_false]
  rw [jsOr_jsAnd_empty]

theorem getProp_obj (q : JSProps) (k : String) :
    getProp (JSVal.obj q) k = (q.lookupKey k).getD .undefined := rfl

theorem c8_scalar_field_amended (data : JSVal) (locale fieldKey : String)
    (hf : jsTruthy (getProp data "fields") = true)
    (hk : fieldKey ∈ jsKeys (getProp data "fields"))
    (harr : ¬(jsTruthy (getProp (getProp data "fields") fieldKey) = true ∧
        isArrV (getProp (getProp (getProp data "fields") fieldKey) locale) = true))
    (hobj : ¬(jsTruthy (getProp (getProp data "fields") fieldKey) = true ∧
        isObjInst (getProp (getProp (getProp data "fields") fieldKey) locale) = true ∧
        jsTruthy (getProp (getProp (getProp (getProp data "fields") fieldKey) locale)
          "fields") = true)) :
    getProp (extract data locale) fieldKey =
      (if jsTruthy (getProp (getProp data "fields") fieldKey) &&
          jsTruthy (getProp (getProp (getProp data "fields") fieldKey) locale) then
        getProp (getProp (getProp data "fields") fieldKey) locale
      else .str "") := by
  obtain ⟨ps, rfl⟩ := truthy_fields_obj data hf
  have hcond1 : (jsTruthy (getProp (getProp (JSVal.obj ps) "fields") fieldKey) &&
      isArrV (getProp (getProp (getProp (JSVal.obj ps) "fields") fieldKey) locale)) =
        false := by
    cases h1 : jsTruthy (getProp (getProp (JSVal.obj ps) "fields") fieldKey) <;>
      cases h2 : isArrV (getProp (getProp (getProp (JSVal.obj ps) "fields") fieldKey)
        locale) <;> simp_all
  have hcond2 : (jsTruthy (getProp (getProp (JSVal.obj ps) "fields") fieldKey) &&
      isObjInst (getProp (getProp (getProp (JSVal.obj ps) "fields") fieldKey) locale) &&
      jsTruthy (getProp (getProp (getProp (getProp (JSVal.obj ps) "fields") fieldKey)
        locale) "fields")) = false := by
    cases h1 : jsTruthy (getProp (getProp (JSVal.obj ps) "fields") fieldKey) <;>
      cases h2 : isObjInst (getProp (getProp (getProp (JSVal.obj ps) "fields") fieldKey)
        locale) <;>
      cases h3 : jsTruthy (getProp (getProp (getProp (getProp (JSVal.obj ps) "fields")
        fieldKey) locale) "fields") <;> simp_all
  show getProp (extractF (jsPropsSize ps + 1) (JSVal.obj ps) locale) fieldKey = _
  simp only [extractF]
  rw [show (jsTruthy (JSVal.obj ps) && jsTruthy (getProp (JSVal.obj ps) "fields")) = true
    from by rw [hf]; rfl]
  rw [if_pos rfl]
  conv_lhs => rw [getProp_obj]
  rw [lookupKey_ofList, alookup_mkObj]
  simp only [List.reverse_append]
  rw [← List.map_reverse,
    alookup_append_some _
      (alookup_map_self
        (extractFieldVal (fun innerData => extractF (jsPropsSize ps) innerData locale)
          (getProp (JSVal.obj ps) "fields") locale)
        (jsKeys (getProp (JSVal.obj ps) "fields")).reverse fieldKey
        (List.mem_reverse.mpr hk)),
    Option.getD_some]
  exact extractFieldVal_scalar _ _ _ _ hcond1 hcond2

def dataC8 : JSVal :=
  objL [("sys", objL [("id", .str "E8"), ("createdAt", .str "c8"),
                      ("updatedAt", .str "u8")]),
        ("fields", objL [("count", objL [("en-US", .num 0)])])]

/-- C8 counterexample: the localized value of field `count` is present
(the number `0`), is neither an array nor a nested entry, yet the
flattened output holds the empty string for `count`, not the value. -/
theorem c8_counterexample :
    getProp (getProp (getProp dataC8 "fields") "count") "en-US" = .num 0 ∧
    isArrV (getProp (getProp (getProp dataC8 "fields") "count") "en-US") = false ∧
    isObjInst (getProp (getProp (getProp dataC8 "fields") "count") "en-US") = false ∧
    getProp (extract dataC8 "en-US") "count" = .str "" ∧
    JSVal.str "" ≠ JSVal.num 0 :=
  ⟨rfl, rfl, rfl, rfl, fun h => JSVal.noConfusion h⟩

def dataC8w : JSVal :=
  objL [("sys", objL [("id", .str "E9"), ("createdAt", .str "c9"),
                      ("updatedAt", .str "u9")]),
        ("fields", objL [("title", objL [("en-US", .str "Hi")])])]

/-- Witness for the amended C8 theorem at a concrete entry. -/
theorem c8_scalar_field_amended_witness :
    getProp (extract dataC8w "en-US") "title" = JSVal.str "Hi" :=
  (c8_scalar_field_amended dataC8w "en-US" "title" rfl (by decide)
    (by decide) (by decide)).trans rfl

/-! Claims C2 (cursor ordering), C3 (mode selection), C4 (filtering). -/

theorem hsetKey_hgetKey_same (st : Store) (b f v : String) :
    (st.hsetKey b f v).hgetKey b f = some v := by
  unfold Store.hsetKey Store.hgetKey
  simp [alookup_objSet]

theorem sync_result_eq (cfg : Config) (respond : Bool → Option String → SyncResponse)
    (scanFn : String → Option Nat → String × List String)
    (stringify : JSVal → String) (failOp : StoreOp → Bool) (r : JSVal) (st : Store) :
    (sync cfg respond scanFn stringify failOp r st).result =
      (if ((syncWrites cfg stringify (respond (syncIsInitial r st) (syncReqTok r st))).map
            (fun w => StoreOp.set w.1 w.2)).any failOp ||
          (syncDeleteOps scanFn
            (respond (syncIsInitial r st) (syncReqTok r st)).deletedEntries).any
            (fun op => match op with | StoreOp.del _ => failOp op | _ => false) then
        Except.error "Sync failed"
      else Except.ok "Sync Complete") := rfl

theorem sync_store_token (cfg : Config) (respond : Bool → Option String → SyncResponse)
    (scanFn : String → Option Nat → String × List String)
    (stringify : JSVal → String) (failOp : StoreOp → Bool) (r : JSVal) (st : Store) :
    (sync cfg respond scanFn stringify failOp r st).store.storedToken =
      some (respond (syncIsInitial r st) (syncReqTok r st)).nextSyncToken := by
  show (Store.hsetKey _ "redis-contentful" "nextSyncToken" _).hgetKey
      "redis-contentful" "nextSyncToken" = _
  rw [hsetKey_hgetKey_same]

theorem mem_syncDeleteOps_scanOrDel (scanFn : String → Option Nat → String × List String)
    (deleted : List JSVal) (op : StoreOp) (hop : op ∈ syncDeleteOps scanFn deleted) :
    isScanOrDel op = true := by
  unfold syncDeleteOps at hop
  split at hop
  · rcases List.mem_flatMap.mp hop with ⟨d, _, hin⟩
    rcases List.mem_cons.mp hin with h | h
    · rw [h]; rfl
    · split at h
      · rw [List.mem_singleton.mp h]; rfl
      · simp at h
  · simp at hop

theorem mem_trace_setOrDel (cfg : Config) (respond : Bool → Option String → SyncResponse)
    (scanFn : String → Option Nat → String × List String)
    (stringify : JSVal → String) (failOp : StoreOp → Bool) (r : JSVal) (st : Store)
    (op : StoreOp) (hop : op ∈ (sync cfg respond scanFn stringify failOp r st).trace)
    (hsd : isSetOrDel op = true) :
    op ∈ ((syncWrites cfg stringify (respond (syncIsInitial r st) (syncReqTok r st))).map
        (fun w => StoreOp.set w.1 w.2)) ∨
      op ∈ syncDeleteOps scanFn
        (respond (syncIsInitial r st) (syncReqTok r st)).deletedEntries := by
  rw [sync_trace_eq] at hop
  simp only [List.mem_append] at hop
  rcases hop with ((((h | h) | h) | h) | h) | h
  · split at h
    · simp at h
    · rw [List.mem_singleton.mp h] at hsd; simp [isSetOrDel] at hsd
  · rw [List.mem_singleton.mp h] at hsd; simp [isSetOrDel] at hsd
  · split at h
    · rw [List.mem_singleton.mp h] at hsd; simp [isSetOrDel] at hsd
    · simp at h
  · exact Or.inl h
  · exact Or.inr h
  · rcases List.mem_cons.mp h with h1 | h1
    · rw [h1] at hsd; simp [isSetOrDel] at hsd
    · rw [List.mem_singleton.mp h1] at hsd; simp [isSetOrDel] at hsd

/-- C2: within one `sync` call the cursor `HSET` is dispatched and
awaited strictly before the `Promise.all` barrier (the trace always
ends `[hset nextSyncToken, barrier]`), so in the execution where some
dispatched write or delete fails, the call throws while the persisted
cursor has already been advanced to the response's `nextSyncToken`; the
cursor update is never rolled back. -/
theorem c2_cursor_before_barrier (cfg : Config)
    (respond : Bool → Option String → SyncResponse)
    (scanFn : String → Option Nat → String × List String)
    (stringify : JSVal → String) (failOp : StoreOp → Bool) (r : JSVal) (st : Store) :
    (∃ pre, (sync cfg respond scanFn stringify failOp r st).trace =
        pre ++ [StoreOp.hset "redis-contentful" "nextSyncToken"
            (respond (syncIsInitial r st) (syncReqTok r st)).nextSyncToken,
          StoreOp.barrier]) ∧
    ((∃ op ∈ (sync cfg respond scanFn stringify failOp r st).trace,
        isSetOrDel op = true ∧ failOp op = true) →
      (sync cfg respond scanFn stringify failOp r st).result =
        Except.error "Sync failed" ∧
      (sync cfg respond scanFn stringify failOp r st).store.storedToken =
        some (respond (syncIsInitial r st) (syncReqTok r st)).nextSyncToken) := by
  constructor
  · rw [sync_trace_eq]
    exact ⟨_, rfl⟩
  · rintro ⟨op, hop, hsd, hfail⟩
    refine ⟨?_, sync_store_token cfg respond scanFn stringify failOp r st⟩
    rw [sync_result_eq]
    rcases mem_trace_setOrDel cfg respond scanFn stringify failOp r st op hop hsd with h | h
    · have : ((syncWrites cfg stringify
          (respond (syncIsInitial r st) (syncReqTok r st))).map
          (fun w => StoreOp.set w.1 w.2)).any failOp = true :=
        List.any_eq_true.mpr ⟨op, h, hfail⟩
      simp [this]
    · have hscan := mem_syncDeleteOps_scanOrDel scanFn _ op h
      have : (syncDeleteOps scanFn
          (respond (syncIsInitial r st) (syncReqTok r st)).deletedEntries).any
          (fun o => match o with | StoreOp.del _ => failOp o | _ => false) = true := by
        refine List.any_eq_true.mpr ⟨op, h, ?_⟩
        cases op <;> simp_all [isSetOrDel, isScanOrDel]
      simp [this]

def cfgC2 : Config := { locale := "en-US", identifier := "title", contentTypes := [] }

def entryC2 : JSVal :=
  objL [("sys", objL [("id", .str "E1"),
                      ("contentType", objL [("sys", objL [("id", .str "post")])]),
                      ("createdAt", .str "c"), ("updatedAt", .str "u")]),
        ("fields", objL [("title", objL [("en-US", .str "Hi")])])]

def respondC2 : Bool → Option String → SyncResponse :=
  fun _ _ => { entries := [entryC2], deletedEntries := [], nextSyncToken := "T2" }

/-- Witness for C2: with the single scheduled write failing, the call
throws while the cursor is already persisted as `"T2"`. -/
theorem c2_cursor_before_barrier_witness :
    (sync cfgC2 respondC2 (fun _ _ => ("0", [])) (fun _ => "V") isSetOrDel
        (.bool true) { kv := [], hashes := [] }).result = Except.error "Sync failed" ∧
    (sync cfgC2 respondC2 (fun _ _ => ("0", [])) (fun _ => "V") isSetOrDel
        (.bool true) { kv := [], hashes := [] }).store.storedToken = some "T2" :=
  (c2_cursor_before_barrier cfgC2 respondC2 (fun _ _ => ("0", [])) (fun _ => "V")
      isSetOrDel (.bool true) { kv := [], hashes := [] }).2
    ⟨StoreOp.set "post:Hi:E1" "V", .tail _ (.tail _ (.head _)), rfl, rfl⟩

theorem flushdb_not_in_sets (writes : List (String × String)) :
    StoreOp.flushdb ∉ writes.map (fun w => StoreOp.set w.1 w.2) := by
  intro h
  rcases List.mem_map.mp h with ⟨w, _, hw⟩
  exact StoreOp.noConfusion hw

theorem flushdb_not_in_deleteOps (scanFn : String → Option Nat → String × List String)
    (deleted : List JSVal) : StoreOp.flushdb ∉ syncDeleteOps scanFn deleted := by
  intro h
  have := mem_syncDeleteOps_scanOrDel scanFn deleted _ h
  simp [isScanOrDel] at this

/-- C3: `sync(truthy)` always runs an initial sync (remote called with
`initial`, no cursor) and dispatches the cache wipe before every write
and delete, whatever cursor is persisted; with a falsy argument and no
persisted cursor the call behaves the same; with a persisted non-empty
cursor the call runs an incremental sync passing that cursor and never
dispatches a wipe. -/
theorem c3_mode_selection (cfg : Config) (respond : Bool → Option String → SyncResponse)
    (scanFn : String → Option Nat → String × List String)
    (stringify : JSVal → String) (failOp : StoreOp → Bool) (st : Store) :
    (∀ r : JSVal, jsTruthy r = true →
      syncIsInitial r st = true ∧
      (sync cfg respond scanFn stringify failOp r st).trace =
        StoreOp.cfsync true none :: StoreOp.flushdb ::
          (((syncWrites cfg stringify (respond true none)).map
              (fun w => StoreOp.set w.1 w.2)) ++
            syncDeleteOps scanFn (respond true none).deletedEntries ++
            [StoreOp.hset "redis-contentful" "nextSyncToken"
                (respond true none).nextSyncToken,
              StoreOp.barrier])) ∧
    (∀ r : JSVal, jsTruthy r = false → st.storedToken = none →
      syncIsInitial r st = true ∧
      (sync cfg respond scanFn stringify failOp r st).trace =
        StoreOp.hget "redis-contentful" "nextSyncToken" :: StoreOp.cfsync true none ::
          StoreOp.flushdb ::
          (((syncWrites cfg stringify (respond true none)).map
              (fun w => StoreOp.set w.1 w.2)) ++
            syncDeleteOps scanFn (respond true none).deletedEntries ++
            [StoreOp.hset "redis-contentful" "nextSyncToken"
                (respond true none).nextSyncToken,
              StoreOp.barrier])) ∧
    (∀ (r : JSVal) (t : String), jsTruthy r = false → st.storedToken = some t → t ≠ "" →
      syncIsInitial r st = false ∧ syncReqTok r st = some t ∧
      StoreOp.flushdb ∉ (sync cfg respond scanFn stringify failOp r st).trace ∧
      (sync cfg respond scanFn stringify failOp r st).trace =
        StoreOp.hget "redis-contentful" "nextSyncToken" ::
          StoreOp.cfsync false (some t) ::
          (((syncWrites cfg stringify (respond false (some t))).map
              (fun w => StoreOp.set w.1 w.2)) ++
            syncDeleteOps scanFn (respond false (some t)).deletedEntries ++
            [StoreOp.hset "redis-contentful" "nextSyncToken"
                (respond false (some t)).nextSyncToken,
              StoreOp.barrier])) := by
  refine ⟨?_, ?_, ?_⟩
  · intro r hr
    have hinit : syncIsInitial r st = true := by
      simp [syncIsInitial, syncTokenRead, hr]
    have hreq : syncReqTok r st = none := by
      simp [syncReqTok, hinit]
    refine ⟨hinit, ?_⟩
    rw [sync_trace_eq]
    simp [hr, hinit, hreq]
  · intro r hr ht
    have hinit : syncIsInitial r st = true := by
      simp only [syncIsInitial, syncTokenRead, hr, Bool.false_eq_true, if_false]
      rw [show st.hgetKey "redis-contentful" "nextSyncToken" = none from ht]
      rfl
    have hreq : syncReqTok r st = none := by
      simp [syncReqTok, hinit]
    refine ⟨hinit, ?_⟩
    rw [sync_trace_eq]
    simp [hr, hinit, hreq]
  · intro r t hr ht hne
    have hinit : syncIsInitial r st = false := by
      simp only [syncIsInitial, syncTokenRead, hr, Bool.false_eq_true, if_false]
      rw [show st.hgetKey "redis-contentful" "nextSyncToken" = some t from ht]
      simp [jsOfRedisReply, jsTruthy, hne]
    have hreq : syncReqTok r st = some t := by
      simp only [syncReqTok, hinit, Bool.false_eq_true, if_false]
      exact ht
    refine ⟨hinit, hreq, ?_, ?_⟩
    · rw [sync_trace_eq]
      simp only [hr, hinit, hreq, Bool.false_eq_true, if_false]
      simp [flushdb_not_in_sets, flushdb_not_in_deleteOps]
    · rw [sync_trace_eq]
      simp [hr, hinit, hreq]

theorem jsIndexOfAux_pos (v : JSVal) (l : List String) :
    ∀ i : Int, 0 ≤ i →
      ((jsIndexOfAux l v i > -1) ↔ (l.any (fun t => strEqJS t v) = true)) := by
  induction l with
  | nil =>
      intro i hi
      simp [jsIndexOfAux]
  | cons a rest ih =>
      intro i hi
      by_cases h : strEqJS a v = true
      · simp only [jsIndexOfAux, h, if_true, List.any_cons, Bool.true_or]
        constructor
        · intro _; trivial
        · intro _; omega
      · have hfalse : strEqJS a v = false := by
          cases hx : strEqJS a v
          · rfl
          · exact absurd hx h
        simp only [jsIndexOfAux, hfalse, Bool.false_eq_true, if_false, List.any_cons,
          Bool.false_or]
        exact ih (i + 1) (by omega)

theorem jsIndexOfStr_pos_iff (l : List String) (v : JSVal) :
    (jsIndexOfStr l v > -1) ↔ (l.any (fun t => strEqJS t v) = true) :=
  jsIndexOfAux_pos v l 0 (by omega)

theorem strEqJS_iff (t : String) (v : JSVal) : strEqJS t v = true ↔ v = .str t := by
  cases v <;> simp [strEqJS, eq_comm]

/-- C4: with a non-empty allow-list exactly the entries whose content
type strictly equals one of the configured names are flattened and
written; with an empty allow-list every changed entry is written. -/
theorem c4_content_type_filter (cfg : Config) (stringify : JSVal → String)
    (resp : SyncResponse) :
    (cfg.contentTypes ≠ [] →
      syncWrites cfg stringify resp =
        (resp.entries.filter
          (fun e => cfg.contentTypes.any (fun t => strEqJS t (entryContentTypeId e)))).map
          (fun e => (entryCacheKey cfg e, stringify (extract e cfg.locale)))) ∧
    (cfg.contentTypes = [] →
      syncWrites cfg stringify resp =
        resp.entries.map (fun e => (entryCacheKey cfg e, stringify (extract e cfg.locale)))) ∧
    (∀ e : JSVal, (cfg.contentTypes.any (fun t => strEqJS t (entryContentTypeId e)) = true) ↔
      ∃ t ∈ cfg.contentTypes, entryContentTypeId e = .str t) := by
  have hpred : ∀ v : JSVal, decide (jsIndexOfStr cfg.contentTypes v > -1) =
      cfg.contentTypes.any (fun t => strEqJS t v) := by
    intro v
    cases hany : cfg.contentTypes.any (fun t => strEqJS t v)
    · simp only [decide_eq_false_iff_not]
      intro hpos
      rw [(jsIndexOfStr_pos_iff cfg.contentTypes v).mp hpos] at hany
      exact Bool.noConfusion hany
    · simp only [decide_eq_true_eq]
      exact (jsIndexOfStr_pos_iff cfg.contentTypes v).mpr hany
  refine ⟨?_, ?_, ?_⟩
  · intro hcts
    by_cases hent : resp.entries = []
    · unfold syncWrites finalEntriesOf
      simp [hent]
    · have hlen : (resp.entries.length != 0) = true := by
        simp [List.length_eq_zero, hent]
      have hlen2 : (cfg.contentTypes.length != 0) = true := by
        simp [List.length_eq_zero, hcts]
      unfold syncWrites finalEntriesOf
      rw [if_pos hlen, if_pos hlen2]
      congr 1
      exact List.filter_congr (fun e _ => hpred (entryContentTypeId e))
  · intro hcts
    by_cases hent : resp.entries = []
    · unfold syncWrites finalEntriesOf
      simp [hent]
    · have hlen : (resp.entries.length != 0) = true := by
        simp [List.length_eq_zero, hent]
      unfold syncWrites finalEntriesOf
      rw [if_pos hlen, hcts]
      simp
  · intro e
    rw [List.any_eq_true]
    constructor
    · rintro ⟨t, htm, hts⟩
      exact ⟨t, htm, (strEqJS_iff t _).mp hts⟩
    · rintro ⟨t, htm, hts⟩
      exact ⟨t, htm, (strEqJS_iff t _).mpr hts⟩

def cfgC3 : Config := { locale := "en-US", identifier := "title", contentTypes := [] }

def respondC3 : Bool → Option String → SyncResponse :=
  fun _ _ => { entries := [], deletedEntries := [], nextSyncToken := "T3" }

def stC3 : Store :=
  { kv := [("post:a:E1", "v")],
    hashes := [("redis-contentful", [("nextSyncToken", "OLD")])] }

def stC3e : Store := { kv := [], hashes := [] }

/-- Witness for C3, covering the three modes: forced reset with a
persisted cursor, no cursor, and a persisted non-empty cursor. -/
theorem c3_mode_selection_witness :
    (syncIsInitial (.bool true) stC3 = true ∧
      (sync cfgC3 respondC3 (fun _ _ => ("0", [])) (fun _ => "") (fun _ => false)
          (.bool true) stC3).trace =
        [StoreOp.cfsync true none, StoreOp.flushdb,
         StoreOp.hset "redis-contentful" "nextSyncToken" "T3", StoreOp.barrier]) ∧
    (syncIsInitial (.bool false) stC3e = true ∧
      (sync cfgC3 respondC3 (fun _ _ => ("0", [])) (fun _ => "") (fun _ => false)
          (.bool false) stC3e).trace =
        [StoreOp.hget "redis-contentful" "nextSyncToken", StoreOp.cfsync true none,
         StoreOp.flushdb, StoreOp.hset "redis-contentful" "nextSyncToken" "T3",
         StoreOp.barrier]) ∧
    (syncIsInitial JSVal.undefined stC3 = false ∧ syncReqTok JSVal.undefined stC3 = some "OLD" ∧
      StoreOp.flushdb ∉ (sync cfgC3 respondC3 (fun _ _ => ("0", [])) (fun _ => "")
          (fun _ => false) JSVal.undefined stC3).trace) := by
  have h3 := c3_mode_selection cfgC3 respondC3 (fun _ _ => ("0", [])) (fun _ => "")
    (fun _ => false) stC3
  have he := c3_mode_selection cfgC3 respondC3 (fun _ _ => ("0", [])) (fun _ => "")
    (fun _ => false) stC3e
  refine ⟨⟨(h3.1 (.bool true) rfl).1, ((h3.1 (.bool true) rfl).2).trans rfl⟩,
    ⟨(he.2.1 (.bool false) rfl rfl).1, ((he.2.1 (.bool false) rfl rfl).2).trans rfl⟩,
    (h3.2.2 JSVal.undefined "OLD" rfl rfl (by decide)).1,
    (h3.2.2 JSVal.undefined "OLD" rfl rfl (by decide)).2.1,
    (h3.2.2 JSVal.undefined "OLD" rfl rfl (by decide)).2.2.1⟩

def cfgC4 : Config := { locale := "en-US", identifier := "title", contentTypes := ["post"] }

def cfgC4all : Config := { locale := "en-US", identifier := "title", contentTypes := [] }

def entryC4post : JSVal :=
  objL [("sys", objL [("id", .str "P1"),
                      ("contentType", objL [("sys", objL [("id", .str "post")])]),
                      ("createdAt", .str "c"), ("updatedAt", .str "u")]),
        ("fields", objL [("title", objL [("en-US", .str "Hi")])])]

def entryC4page : JSVal :=
  objL [("sys", objL [("id", .str "G1"),
                      ("contentType", objL [("sys", objL [("id", .str "page")])]),
                      ("createdAt", .str "c"), ("updatedAt", .str "u")]),
        ("fields", objL [("title", objL [("en-US", .str "Pg")])])]

def respC4 : SyncResponse :=
  { entries := [entryC4post, entryC4page], deletedEntries := [], nextSyncToken := "T4" }

/-- Witness for C4: with allow-list `["post"]` only the `post` entry is
written; with the empty allow-list both entries are written. -/
theorem c4_content_type_filter_witness :
    syncWrites cfgC4 (fun _ => "V") respC4 = [("post:Hi:P1", "V")] ∧
    syncWrites cfgC4all (fun _ => "V") respC4 =
      [("post:Hi:P1", "V"), ("page:Pg:G1", "V")] :=
  ⟨((c4_content_type_filter cfgC4 (fun _ => "V") respC4).1 (by decide)).trans rfl,
   ((c4_content_type_filter cfgC4all (fun _ => "V") respC4).2.1 rfl).trans rfl⟩

/-! Claims C7 (deletion by suffix scan) and C10 (empty page still deletes). -/

theorem filter_scanOrDel_sets (writes : List (String × String)) :
    (writes.map (fun w => StoreOp.set w.1 w.2)).filter isScanOrDel = [] := by
  induction writes with
  | nil => rfl
  | cons w rest ih => simp [isScanOrDel, ih]

theorem syncDeleteOps_eq (scanFn : String → Option Nat → String × List String)
    (deleted : List JSVal) :
    syncDeleteOps scanFn deleted =
      deleted.flatMap (fun d =>
        [StoreOp.scan "0" ("*:*:" ++ jsToStr (entryIdOf d)) none,
         StoreOp.del (scanFn ("*:*:" ++ jsToStr (entryIdOf d)) none).2]) := by
  unfold syncDeleteOps
  split
  · rfl
  · rename_i h
    have hnil : deleted = [] := by
      rcases deleted with _ | ⟨a, rest⟩
      · rfl
      · simp [List.length] at h
    simp [hnil]

theorem filter_scanOrDel_deleteOps (scanFn : String → Option Nat → String × List String)
    (deleted : List JSVal) :
    (syncDeleteOps scanFn deleted).filter isScanOrDel = syncDeleteOps scanFn deleted :=
  List.filter_eq_self.mpr (fun op hop => mem_syncDeleteOps_scanOrDel scanFn deleted op hop)

/-- C7: the scans and deletes that one `sync` call dispatches are, in
order, exactly one single-page scan with suffix pattern `*:*:{id}` per
deleted entry id — never a cursor loop — followed by one delete of
every key that page returned. -/
theorem c7_deletion_by_suffix_scan (cfg : Config)
    (respond : Bool → Option String → SyncResponse)
    (scanFn : String → Option Nat → String × List String)
    (stringify : JSVal → String) (failOp : StoreOp → Bool) (r : JSVal) (st : Store) :
    (sync cfg respond scanFn stringify failOp r st).trace.filter isScanOrDel =
      (respond (syncIsInitial r st) (syncReqTok r st)).deletedEntries.flatMap
        (fun d =>
          [StoreOp.scan "0" ("*:*:" ++ jsToStr (entryIdOf d)) none,
           StoreOp.del (scanFn ("*:*:" ++ jsToStr (entryIdOf d)) none).2]) := by
  rw [sync_trace_eq]
  simp only [List.filter_append]
  have hread : ((if jsTruthy r then ([] : List StoreOp)
      else [StoreOp.hget "redis-contentful" "nextSyncToken"]).filter isScanOrDel) = [] := by
    split <;> rfl
  have hflush : ((if syncIsInitial r st then [StoreOp.flushdb]
      else ([] : List StoreOp)).filter isScanOrDel) = [] := by
    split <;> rfl
  rw [hread, hflush, filter_scanOrDel_sets, filter_scanOrDel_deleteOps, syncDeleteOps_eq]
  simp [isScanOrDel]

/-- C10: when the suffix scan page for a deleted entry id comes back
with an empty key list, the guard (truthiness of the reply's key array)
still passes and a delete of the empty key list is dispatched. -/
theorem c10_empty_scan_still_deletes (cfg : Config)
    (respond : Bool → Option String → SyncResponse)
    (scanFn : String → Option Nat → String × List String)
    (stringify : JSVal → String) (failOp : StoreOp → Bool) (r : JSVal) (st : Store)
    (d : JSVal) (c : String)
    (hd : d ∈ (respond (syncIsInitial r st) (syncReqTok r st)).deletedEntries)
    (hscan : scanFn ("*:*:" ++ jsToStr (entryIdOf d)) none = (c, [])) :
    StoreOp.del [] ∈ (sync cfg respond scanFn stringify failOp r st).trace := by
  rw [sync_trace_eq]
  simp only [List.mem_append]
  refine Or.inl (Or.inr ?_)
  rw [syncDeleteOps_eq]
  refine List.mem_flatMap.mpr ⟨d, hd, ?_⟩
  rw [hscan]
  exact List.mem_cons_of_mem _ (List.mem_singleton.mpr rfl)

def cfgC10 : Config := { locale := "en-US", identifier := "title", contentTypes := [] }

def respondC10 : Bool → Option String → SyncResponse :=
  fun _ _ => { entries := [],
               deletedEntries := [objL [("sys", objL [("id", .str "D1")])]],
               nextSyncToken := "TA" }

/-- Witness for C10 at a concrete deleted id whose scan page is empty. -/
theorem c10_empty_scan_still_deletes_witness :
    StoreOp.del [] ∈ (sync cfgC10 respondC10 (fun _ _ => ("0", [])) (fun _ => "")
        (fun _ => false) (.bool true) { kv := [], hashes := [] }).trace :=
  c10_empty_scan_still_deletes cfgC10 respondC10 (fun _ _ => ("0", [])) (fun _ => "")
    (fun _ => false) (.bool true) { kv := [], hashes := [] }
    (objL [("sys", objL [("id", .str "D1")])]) "0" (.head _) rfl

/-! Claim C9: custom accessor key validation. -/

/-- C9: each custom accessor fails with its ArgumentError for every
non-string key — synchronously, returning the error without dispatching
any store operation — and never raises it for a string key. -/
theorem c9_custom_key_validation (stringify : JSVal → String) (parse : String → JSVal)
    (kv : List (String × String)) (key value expire : JSVal) :
    (key.isStr = false →
      setCustom stringify key value expire =
        Except.error "setCustom - key should be a string" ∧
      getCustom parse kv key = Except.error "getCustom - key should be a string" ∧
      deleteCustom key = Except.error "deleteCustom - key should be a string") ∧
    (key.isStr = true →
      (∃ ops, setCustom stringify key value expire = Except.ok ops) ∧
      (∃ res, getCustom parse kv key = Except.ok res) ∧
      (∃ ops, deleteCustom key = Except.ok ops)) := by
  constructor
  · intro h
    refine ⟨?_, ?_, ?_⟩ <;> simp [setCustom, getCustom, deleteCustom, h]
  · intro h
    refine ⟨?_, ?_, ?_⟩ <;> simp [setCustom, getCustom, deleteCustom, h]

/-- Witness for C9: a numeric key fails, a string key succeeds. -/
theorem c9_custom_key_validation_witness :
    (setCustom (fun _ => "V") (.num 123) (.str "v") .undefined =
      Except.error "setCustom - key should be a string") ∧
    (∃ ops, deleteCustom (.str "k") = Except.ok ops) :=
  ⟨((c9_custom_key_validation (fun _ => "V") (fun _ => .null) [] (.num 123)
      (.str "v") .undefined).1 rfl).1,
   ((c9_custom_key_validation (fun _ => "V") (fun _ => .null) [] (.str "k")
      (.str "v") .undefined).2 rfl).2.2⟩

/-! Claim C6: type grouping of `get` results. -/

theorem alookup_groupInsert (l : List (String × List JSVal)) (t t2 : String) (v : JSVal) :
    alookup (groupInsert l t v) t2 =
      if t = t2 then some ((alookup l t).getD [] ++ [v]) else alookup l t2 := by
  induction l with
  | nil =>
      simp only [groupInsert, alookup]
      by_cases h : t = t2 <;> simp [h]
  | cons p rest ih =>
      obtain ⟨k, vs⟩ := p
      simp only [groupInsert]
      by_cases hk : k = t
      · subst hk
        simp only [if_pos rfl, alookup]
        by_cases h2 : k = t2 <;> simp [alookup, h2]
      · rw [if_neg hk]
        simp only [alookup, ih]
        by_cases h2 : k = t2
        · have h3 : ¬t = t2 := fun hh => hk (h2.trans hh.symm)
          simp [h2, h3]
        · by_cases h3 : t = t2 <;> simp [h2, h3, hk]

theorem alookup_buildFinal_aux (pairs : List (String × JSVal))
    (acc : List (String × List JSVal)) (t : String) :
    alookup (pairs.foldl (fun a p => groupInsert a (parseType p.1) p.2) acc) t =
      (match alookup acc t, ((pairs.filter (fun p => parseType p.1 == t)).map Prod.snd) with
       | some ws, vs => some (ws ++ vs)
       | none, [] => none
       | none, vs => some vs) := by
  induction pairs generalizing acc with
  | nil =>
      cases h : alookup acc t <;> simp [h]
  | cons p rest ih =>
      simp only [List.foldl_cons, List.filter_cons]
      rw [ih]
      rw [alookup_groupInsert]
      by_cases hp : parseType p.1 = t
      · have hbeq : (parseType p.1 == t) = true := by simp [hp]
        rw [if_pos hp, hp]
        simp only [hbeq]
        cases h : alookup acc t <;> simp [h, List.append_assoc]
      · have hbeq : (parseType p.1 == t) = false := by simp [hp]
        rw [if_neg hp]
        simp only [hbeq]
        simp

/-- The grouping the claim describes: the ordered list of all fetched
values whose key's segment before the first ':' equals `t`, absent when
no such key was fetched. -/
def groupedAt (pairs : List (String × JSVal)) (t : String) : Option (List JSVal) :=
  match (pairs.filter (fun p => parseType p.1 == t)).map Prod.snd with
  | [] => none
  | vs => some vs

theorem alookup_buildFinal (pairs : List (String × JSVal)) (t : String) :
    alookup (buildFinal pairs) t = groupedAt pairs t := by
  unfold buildFinal groupedAt
  rw [alookup_buildFinal_aux]
  cases h : (pairs.filter (fun p => parseType p.1 == t)).map Prod.snd <;>
    simp [alookup]

theorem zip_self_map {α β : Type} (l : List α) (f : α → β) :
    l.zip (l.map f) = l.map (fun a => (a, f a)) := by
  induction l with
  | nil => rfl
  | cons a rest ih => simp [ih]

def kvC6 : List (String × String) :=
  [("post:hi:E1", "a"), ("author:an:A1", "b"), ("post:yo:E2", "c")]

/-- C6: the mapping returned by `get` holds, at each type name, exactly
the fetched deserialized values whose key starts with that name before
the first ':', in fetch order; concretely, with two stored `post`
entries and one `author` entry, `get(["post","author"])` returns the
two groups with sizes 2 and 1. -/
theorem c6_type_grouping :
    (∀ (scanFn : String → Option Nat → String × List String)
        (kv : List (String × String)) (parse : String → JSVal) (q : GetArg) (t : String),
      alookup (redisContentfulGet scanFn kv parse q).final t =
        groupedAt ((redisContentfulGet scanFn kv parse q).keys.map
          (fun k => (k, fetchVal kv parse k))) t) ∧
    ((redisContentfulGet (fullScanPage kvC6) kvC6 JSVal.str
        (.garr [.str "post", .str "author"] .undefined)).final.map
          (fun p => (p.1, p.2.length)) = [("post", 2), ("author", 1)]) := by
  constructor
  · intro scanFn kv parse q t
    show alookup (buildFinal ((getScanned scanFn q).2.zip
        ((getScanned scanFn q).2.map (fun k => fetchVal kv parse k)))) t = _
    rw [zip_self_map, alookup_buildFinal]
    rfl
  · rfl

/-! Claim C5: polymorphic query resolution of `get`. -/

/-- C5: a type-name string scans one page of `{type}:*:*`; an array of
type names (with its optional non-positional `search` property) scans
one page of `{type||asterisk}:{search||asterisk}:*` per element and
concatenates the pages; an object with a string or array `type`
property resolves the same way; any other input — including an object
whose `type` is neither — dispatches nothing and returns the empty
mapping.  One scan operation per pattern: the page cursor is never
looped. -/
theorem c5_query_resolution :
    (∀ (scanFn : String → Option Nat → String × List String)
        (kv : List (String × String)) (parse : String → JSVal) (s : String),
      (redisContentfulGet scanFn kv parse (.gstr s)).trace =
        StoreOp.scan "0" (s ++ ":*:*") (some 10000) ::
          ((redisContentfulGet scanFn kv parse (.gstr s)).keys.map StoreOp.get) ∧
      (redisContentfulGet scanFn kv parse (.gstr s)).keys =
        (scanFn (s ++ ":*:*") (some 10000)).2) ∧
    (∀ (scanFn : String → Option Nat → String × List String)
        (kv : List (String × String)) (parse : String → JSVal)
        (elems : List JSVal) (search : JSVal),
      (redisContentfulGet scanFn kv parse (.garr elems search)).trace =
        (elems.map (fun ty => StoreOp.scan "0" (scanPat ty search) (some 10000))) ++
          ((redisContentfulGet scanFn kv parse (.garr elems search)).keys.map
            StoreOp.get) ∧
      (redisContentfulGet scanFn kv parse (.garr elems search)).keys =
        (elems.map (fun ty => (scanFn (scanPat ty search) (some 10000)).2)).flatten) ∧
    (∀ (scanFn : String → Option Nat → String × List String)
        (kv : List (String × String)) (parse : String → JSVal)
        (props : List (String × JSVal)) (s : String),
      (alookup props "type").getD .undefined = .str s →
      (redisContentfulGet scanFn kv parse (.gobj props)).keys =
        (scanFn (scanPat (.str s) ((alookup props "search").getD .undefined)) (some 10000)).2 ∧
      (redisContentfulGet scanFn kv parse (.gobj props)).trace =
        StoreOp.scan "0" (scanPat (.str s) ((alookup props "search").getD .undefined))
            (some 10000) ::
          ((redisContentfulGet scanFn kv parse (.gobj props)).keys.map StoreOp.get)) ∧
    (∀ (scanFn : String → Option Nat → String × List String)
        (kv : List (String × String)) (parse : String → JSVal)
        (props : List (String × JSVal)) (tys : JSArr),
      (alookup props "type").getD .undefined = .arr tys →
      (redisContentfulGet scanFn kv parse (.gobj props)).keys =
        (tys.toList.map (fun ty =>
          (scanFn (scanPat ty ((alookup props "search").getD .undefined))
            (some 10000)).2)).flatten) ∧
    (∀ (scanFn : String → Option Nat → String × List String)
        (kv : List (String × String)) (parse : String → JSVal)
        (props : List (String × JSVal)),
      ((alookup props "type").getD .undefined).isStr = false →
      isArrV ((alookup props "type").getD .undefined) = false →
      (redisContentfulGet scanFn kv parse (.gobj props)).final = [] ∧
      (redisContentfulGet scanFn kv parse (.gobj props)).trace = []) ∧
    (∀ (scanFn : String → Option Nat → String × List String)
        (kv : List (String × String)) (parse : String → JSVal) (v : JSVal),
      (redisContentfulGet scanFn kv parse (.gother v)).final = [] ∧
      (redisContentfulGet scanFn kv parse (.gother v)).trace = []) := by
  refine ⟨fun scanFn kv parse s => ⟨rfl, rfl⟩, ?_, ?_, ?_, ?_,
    fun scanFn kv parse v => ⟨rfl, rfl⟩⟩
  · intro scanFn kv parse elems search
    constructor
    · show ((elems.map (fun t => scanPat t search)).map
          (fun p => StoreOp.scan "0" p (some 10000))) ++ _ = _
      rw [List.map_map]
      rfl
    · show ((elems.map (fun t => scanPat t search)).map
          (fun p => (scanFn p (some 10000)).2)).flatten = _
      rw [List.map_map]
      rfl
  · intro scanFn kv parse props s hty
    have hkeys : (redisContentfulGet scanFn kv parse (.gobj props)).keys =
        (scanFn (scanPat (.str s) ((alookup props "search").getD .undefined))
          (some 10000)).2 := by
      show (getScanned scanFn (.gobj props)).2 = _
      simp only [getScanned]
      rw [hty]
      rfl
    refine ⟨hkeys, ?_⟩
    rw [hkeys]
    show (getScanned scanFn (.gobj props)).1 ++
        ((getScanned scanFn (.gobj props)).2.map StoreOp.get) = _
    simp only [getScanned]
    rw [hty]
    rfl
  · intro scanFn kv parse props tys hty
    show (getScanned scanFn (.gobj props)).2 = _
    simp only [getScanned]
    rw [hty]
    show ((tys.toList.map (fun t =>
        scanPat t ((alookup props "search").getD .undefined))).map
        (fun p => (scanFn p (some 10000)).2)).flatten = _
    rw [List.map_map]
    rfl
  · intro scanFn kv parse props h1 h2
    have hscanned : getScanned scanFn (.gobj props) = ([], []) := by
      simp only [getScanned]
      rw [if_neg, if_neg]
      · intro hc; rw [h2] at hc; exact Bool.noConfusion hc
      · intro hc; rw [h1] at hc; exact Bool.noConfusion hc
    constructor
    · show buildFinal ((getScanned scanFn (.gobj props)).2.zip _) = _
      rw [hscanned]
      rfl
    · show (getScanned scanFn (.gobj props)).1 ++
          ((getScanned scanFn (.gobj props)).2.map StoreOp.get) = _
      rw [hscanned]
      rfl

/-- Witness for C5 at concrete object queries: string `type`, array
`type`, and an object with neither. -/
theorem c5_query_resolution_witness :
    (redisContentfulGet (fun _ _ => ("0", ["post:a:E1"])) [] JSVal.str
        (.gobj [("type", JSVal.str "post")])).keys = ["post:a:E1"] ∧
    (redisContentfulGet (fun _ _ => ("0", ["x:a:E2"])) [] JSVal.str
        (.gobj [("type", arrL [JSVal.str "x"])])).keys = ["x:a:E2"] ∧
    (redisContentfulGet (fun _ _ => ("0", ["k"])) [] JSVal.str
        (.gobj [("q", JSVal.num 1)])).final = [] :=
  ⟨((c5_query_resolution.2.2.1 (fun _ _ => ("0", ["post:a:E1"])) [] JSVal.str
      [("type", JSVal.str "post")] "post" rfl).1).trans rfl,
   (c5_query_resolution.2.2.2.1 (fun _ _ => ("0", ["x:a:E2"])) [] JSVal.str
      [("type", arrL [JSVal.str "x"])] (JSArr.ofList [JSVal.str "x"]) rfl).trans rfl,
   ((c5_query_resolution.2.2.2.2.1 (fun _ _ => ("0", ["k"])) [] JSVal.str
      [("q", JSVal.num 1)] rfl rfl).1)⟩
